import Mathlib

/-!
Shallow embedding of the authx core: the identity reconciler
(`src/supabase/ensureUser.ts`), the token verifier (`src/core/verify.ts`)
and the edge request handler (`src/next/edge/handler.ts`), together with
proofs of the specified properties.

JavaScript `string | undefined` values are modelled as `Option String`
(`none` = absent / `undefined`; `some ""` = present empty string, which is
falsy in JavaScript).
-/

/-- JavaScript `s.toLowerCase()`: lower-case every character. -/
def jsToLower (s : String) : String := ⟨s.data.map Char.toLower⟩

/-- JavaScript truthiness of a `string | undefined` value: present and
non-empty. -/
def truthy : Option String → Bool
  | none => false
  | some s => s ≠ ""

/-- The decoded Firebase ID-token payload (`FirebaseIdTokenPayload` in
`src/core/types.ts`): all fields optional strings. -/
structure Claims where
  iss : Option String := none
  aud : Option String := none
  sub : Option String := none
  user_id : Option String := none
  email : Option String := none
  phone_number : Option String := none
deriving DecidableEq, Repr

/-- The `roles`-carrying `app_metadata` bag of a Supabase user: the `roles`
array plus the other keys preserved by object spread. -/
structure AppMetadata where
  roles : List String := []
  extra : List (String × String) := []
deriving DecidableEq, Repr

/-- A Supabase account record as used by `ensureUser.ts`: store id, optional
phone and email, confirmation flags, `user_metadata` and `app_metadata`. -/
structure User where
  id : String
  phone : Option String := none
  email : Option String := none
  phoneConfirmed : Bool := false
  emailConfirmed : Bool := false
  user_metadata : List (String × String) := []
  app_metadata : AppMetadata := {}
deriving DecidableEq, Repr

/-- The backing user store behind the Supabase admin client: its current user
list, the id it will assign to the next created user, and flags for whether
its create / update operations report an error. -/
structure Store where
  users : List User
  nextId : String := "new-id"
  createError : Bool := false
  updateError : Bool := false
deriving DecidableEq, Repr

/-- The admin-API calls `ensureSupabaseUser` can issue against the store. -/
inductive StoreCall
  | listUsers
  | createUser
  | updateUserById
deriving DecidableEq, Repr

/-- The failure conditions thrown by `ensureSupabaseUser`. -/
inductive EnsureErr
  | missingSubject
  | createFailed
  | updateFailed
deriving DecidableEq, Repr

deriving instance DecidableEq for Except

/-- Object-spread key update on a string-keyed metadata bag: overwrite the
key if present, append it otherwise. -/
def setKey : List (String × String) → String → String → List (String × String)
  | [], k, v => [(k, v)]
  | (k', v') :: rest, k, v =>
    if k' = k then (k, v) :: rest else (k', v') :: setKey rest k v

/-- `Array.from(new Set(l))` on strings: deduplicate keeping the first
occurrence of each element, in order. `seen` accumulates emitted elements. -/
def jsDedupAux (seen : List String) : List String → List String
  | [] => []
  | x :: xs =>
    if x ∈ seen then jsDedupAux seen xs else x :: jsDedupAux (x :: seen) xs

/-- `Array.from(new Set(l))` on strings. -/
def jsDedup (l : List String) : List String := jsDedupAux [] l

/-- The phone-lookup block of `ensureSupabaseUser` (`ensureUser.ts` lines
13–16): when the phone claim is truthy, list the users and find the first
whose phone equals it exactly. -/
def findByPhone (store : Store) (claims : Claims) : Option User :=
  match claims.phone_number with
  | none => none
  | some p =>
    if p = "" then none
    else store.users.find? (fun u => decide (u.phone = some p))

/-- The email-lookup block of `ensureSupabaseUser` (`ensureUser.ts` lines
18–21): when the email claim is truthy, find the first user whose email
(defaulted to the empty string) matches case-insensitively. -/
def findByEmail (store : Store) (claims : Claims) : Option User :=
  match claims.email with
  | none => none
  | some e =>
    if e = "" then none
    else store.users.find? (fun u => decide (jsToLower (u.email.getD "") = jsToLower e))

/-- The account targeted by reconciliation: the phone match when the phone
lookup finds one, otherwise the email match (`user` after lines 13–21). -/
def findTarget (store : Store) (claims : Claims) : Option User :=
  findByPhone store claims <|> findByEmail store claims

/-- The store calls issued by the two lookup blocks: `listUsers` when the
phone claim is truthy, and `listUsers` again when no phone match was found
and the email claim is truthy. -/
def lookupTrace (store : Store) (claims : Claims) : List StoreCall :=
  (if truthy claims.phone_number then [StoreCall.listUsers] else []) ++
  (if (findByPhone store claims).isNone && truthy claims.email then [StoreCall.listUsers] else [])

/-- `ensureSupabaseUser` from `src/supabase/ensureUser.ts`, instrumented with
the list of admin-API calls it issues. Resolve the subject as
`claims.sub ?? claims.user_id` and fail when it is falsy; look up an existing
account by phone then email; create a new account when none is found
(truthy-gated fields, confirmation flags, provenance metadata, roles exactly
`["authenticated"]`), otherwise update the found account (spread-merged
metadata, deduplicated role union with `"authenticated"`). Store errors on
create / update fail the whole operation. -/
def ensureSupabaseUser (store : Store) (claims : Claims) :
    List StoreCall × Except EnsureErr (User × Store) :=
  match claims.sub <|> claims.user_id with
  | none => ([], .error .missingSubject)
  | some uid =>
    if uid = "" then ([], .error .missingSubject)
    else
      let t := lookupTrace store claims
      match findTarget store claims with
      | none =>
        if store.createError then (t ++ [.createUser], .error .createFailed)
        else
          let newUser : User := {
            id := store.nextId
            email := if truthy claims.email then claims.email else none
            phone := if truthy claims.phone_number then claims.phone_number else none
            emailConfirmed := truthy claims.email
            phoneConfirmed := truthy claims.phone_number
            user_metadata := [("firebase_uid", uid), ("provider", "firebase-phone")]
            app_metadata := { roles := ["authenticated"], extra := [] } }
          (t ++ [.createUser], .ok (newUser, { store with users := store.users ++ [newUser] }))
      | some u0 =>
        if store.updateError then (t ++ [.updateUserById], .error .updateFailed)
        else
          let u1 : User := { u0 with
            user_metadata := setKey (setKey u0.user_metadata "firebase_uid" uid) "provider" "firebase-phone"
            app_metadata := { u0.app_metadata with
              roles := jsDedup (u0.app_metadata.roles ++ ["authenticated"]) } }
          (t ++ [.updateUserById],
           .ok (u1, { store with users := store.users.map (fun u => if u.id = u0.id then u1 else u) }))

/-- A signed bearer token as seen by the verifier: its decoded payload and
abstract validity of its signature and time-based claims. -/
structure Token where
  payload : Claims
  sigValid : Bool := true
  timeValid : Bool := true
deriving DecidableEq, Repr

/-- Modelled from the spec: the external `jwtVerify` call (the `jose`
library, not part of `src/`) cryptographically validates the token's
signature and time-based claims and checks that the payload's issuer and
audience claims equal the expected `issuer` and `audience` options exactly;
any mismatch fails verification. On success it returns the payload. -/
def jwtVerify (tok : Token) (issuer audience : String) : Option Claims :=
  if tok.sigValid && tok.timeValid &&
      tok.payload.iss = some issuer && tok.payload.aud = some audience
  then some tok.payload else none

/-- `verifyFirebaseIdToken` from `src/core/verify.ts`: verify against the
Google JWKS with issuer option equal to
`https://securetoken.google.com/` ++ `projectId` and audience option equal to
`projectId`. -/
def verifyFirebaseIdToken (tok : Token) (projectId : String) : Option Claims :=
  jwtVerify tok ("https://securetoken.google.com/" ++ projectId) projectId

/-- `listPrefixOf pat l` is true when `pat` is a prefix of `l`. -/
def listPrefixOf : List Char → List Char → Bool
  | [], _ => true
  | _ :: _, [] => false
  | a :: as, b :: bs => a = b && listPrefixOf as bs

/-- `listContainsSub pat l` is true when `pat` occurs as a contiguous
sublist of `l`. -/
def listContainsSub (pat : List Char) : List Char → Bool
  | [] => pat.isEmpty
  | c :: rest => listPrefixOf pat (c :: rest) || listContainsSub pat rest

/-- JavaScript `s.includes(pat)`: substring containment. -/
def strIncludes (s pat : String) : Bool := listContainsSub pat.toList s.toList

/-- The `idToken` field of a parsed JSON request body: a string, some
non-string JSON value, or absent. -/
inductive JsonField
  | str (s : String)
  | nonString
  | missing
deriving DecidableEq, Repr

/-- A parsed JSON request body (an object with an optional `idToken`
field). -/
structure ReqBody where
  idToken : JsonField
deriving DecidableEq, Repr

/-- An incoming HTTP request as consumed by the handler: the
`content-type` header (if any) and the result of `req.json()` (`none` =
parse failure or `null` body). -/
structure Request where
  contentType : Option String := none
  body : Option ReqBody := none
deriving DecidableEq, Repr

/-- The JSON bodies produced by the handler: the failure shape
`ok: false, error` and the success shape with `uid`, `phoneNumber`,
`email`, `supabaseUserId` (each nullable) and a `note`. -/
inductive RespBody
  | errBody (error : String)
  | okBody (uid phoneNumber email supabaseUserId : Option String) (note : String)
deriving DecidableEq, Repr

/-- An HTTP response: status, JSON body and headers. -/
structure Response where
  status : Nat
  body : RespBody
  headers : List (String × String)
deriving DecidableEq, Repr

/-- `json` from `src/next/edge/handler.ts`: build a response with the given
status and body and the fixed `content-type` / `cache-control` headers. -/
def json (status : Nat) (body : RespBody) : Response :=
  { status := status, body := body,
    headers := [("content-type", "application/json"), ("cache-control", "no-store")] }

/-- The request handler built by `buildVerifyRouteHandler` in
`src/next/edge/handler.ts`, with the token verifier abstracted as a function
(`none` = verification threw) and the bound admin client as the store it
acts on. Reject non-JSON content types with 415; reject missing / unparsable
bodies, non-string or short (< 100 chars) `idToken` with 400; verification
failure with 401; reconciliation failure (any throw) with 500; otherwise
answer 200 with the identity fields. -/
def handler (verify : String → Option Claims) (store : Store) (req : Request) : Response :=
  let contentType := req.contentType.getD ""
  if !(strIncludes contentType "application/json") then
    json 415 (.errBody "Unsupported content type")
  else
    match req.body with
    | none => json 400 (.errBody "Invalid payload")
    | some b =>
      match b.idToken with
      | .nonString => json 400 (.errBody "Invalid payload")
      | .missing => json 400 (.errBody "Invalid payload")
      | .str tok =>
        if tok.length < 100 then json 400 (.errBody "Invalid payload")
        else
          match verify tok with
          | none => json 401 (.errBody "Invalid or expired Firebase ID token")
          | some payload =>
            match (ensureSupabaseUser store payload).2 with
            | .error _ => json 500 (.errBody "Internal error")
            | .ok (user, _) =>
              json 200 (.okBody (payload.sub <|> payload.user_id) payload.phone_number
                payload.email (some user.id)
                "Verified Firebase token and ensured Supabase user exists.")

/-- Lookup of a key in a metadata bag (first occurrence). -/
def getKey (k : String) : List (String × String) → Option String
  | [] => none
  | (k', v) :: rest => if k' = k then some v else getKey k rest

/-- The payload-rejection condition of the handler: body missing or
unparsable, `idToken` not a string, or `idToken` shorter than 100
characters. -/
def invalidPayload : Option ReqBody → Bool
  | none => true
  | some b =>
    match b.idToken with
    | .str s => s.length < 100
    | .nonString => true
    | .missing => true

/-- A 100-character token string, for concrete instantiations. -/
def longTok : String :=
  "0123456789012345678901234567890123456789012345678901234567890123456789012345678901234567890123456789"

/-- Concrete claim set with a subject and a present-but-empty email claim. -/
def c6claims : Claims := { sub := some "u1", email := some "" }

/-- Concrete empty store. -/
def emptyStore : Store := { users := [] }

/-- The account `ensureSupabaseUser` creates from `c6claims` on
`emptyStore`. -/
def c6user : User :=
  { id := "new-id",
    user_metadata := [("firebase_uid", "u1"), ("provider", "firebase-phone")],
    app_metadata := { roles := ["authenticated"] } }

/-- The account built by the create branch of `ensureSupabaseUser`. -/
def mkNewUser (store : Store) (claims : Claims) (uid : String) : User :=
  { id := store.nextId
    email := if truthy claims.email then claims.email else none
    phone := if truthy claims.phone_number then claims.phone_number else none
    emailConfirmed := truthy claims.email
    phoneConfirmed := truthy claims.phone_number
    user_metadata := [("firebase_uid", uid), ("provider", "firebase-phone")]
    app_metadata := { roles := ["authenticated"], extra := [] } }

/-- The account built by the update branch of `ensureSupabaseUser` from the
found account `u0`. -/
def mkUpdatedUser (u0 : User) (uid : String) : User :=
  { u0 with
    user_metadata := setKey (setKey u0.user_metadata "firebase_uid" uid) "provider" "firebase-phone"
    app_metadata := { u0.app_metadata with
      roles := jsDedup (u0.app_metadata.roles ++ ["authenticated"]) } }

/-- Concrete account with role `admin`, phone `+15550001111`. -/
def priorUser : User :=
  { id := "A", phone := some "+15550001111", app_metadata := { roles := ["admin"] } }

/-- Concrete store holding only `priorUser`. -/
def foundStore : Store := { users := [priorUser] }

/-- Concrete claims whose phone matches `priorUser`. -/
def foundClaims : Claims := { sub := some "u1", phone_number := some "+15550001111" }

/-- Concrete account whose email matches `c2claims` case-insensitively. -/
def c2userB : User := { id := "B", email := some "x@b.com" }

/-- Concrete store holding `priorUser` (phone match) and `c2userB` (email
match). -/
def c2store : Store := { users := [priorUser, c2userB] }

/-- Concrete claims matching `priorUser` by phone and `c2userB` by email. -/
def c2claims : Claims :=
  { sub := some "u1", phone_number := some "+15550001111", email := some "x@B.com" }

theorem mem_jsDedupAux (seen l : List String) (y : String) :
    y ∈ jsDedupAux seen l ↔ y ∈ l ∧ y ∉ seen := by
  induction l generalizing seen with
  | nil => simp [jsDedupAux]
  | cons x xs ih =>
    simp only [jsDedupAux]
    by_cases hx : x ∈ seen
    · rw [if_pos hx, ih]
      simp only [List.mem_cons]
      constructor
      · rintro ⟨hy, hs⟩
        exact ⟨Or.inr hy, hs⟩
      · rintro ⟨hy | hy, hs⟩
        · exact absurd (hy ▸ hx) hs
        · exact ⟨hy, hs⟩
    · rw [if_neg hx]
      simp only [List.mem_cons, ih]
      by_cases hyx : y = x
      · subst hyx
        simp [hx]
      · simp [hyx]

theorem nodup_jsDedupAux (seen l : List String) : (jsDedupAux seen l).Nodup := by
  induction l generalizing seen with
  | nil => simp [jsDedupAux]
  | cons x xs ih =>
    by_cases hx : x ∈ seen
    · simpa [jsDedupAux, if_pos hx] using ih seen
    · simp only [jsDedupAux, if_neg hx]
      refine List.nodup_cons.mpr ⟨?_, ih (x :: seen)⟩
      intro hmem
      exact ((mem_jsDedupAux (x :: seen) xs x).mp hmem).2 (List.mem_cons_self x seen)

theorem mem_jsDedup (l : List String) (y : String) : y ∈ jsDedup l ↔ y ∈ l := by
  simp [jsDedup, mem_jsDedupAux]

theorem nodup_jsDedup (l : List String) : (jsDedup l).Nodup := nodup_jsDedupAux [] l

theorem getKey_setKey_self (l : List (String × String)) (k v : String) :
    getKey k (setKey l k v) = some v := by
  induction l with
  | nil => simp [setKey, getKey]
  | cons p rest ih =>
    by_cases h : p.1 = k
    · simp [setKey, getKey, h]
    · simp [setKey, getKey, h, ih]

theorem getKey_setKey_ne (l : List (String × String)) (k k' v : String) (h : k ≠ k') :
    getKey k (setKey l k' v) = getKey k l := by
  have h' : k' ≠ k := Ne.symm h
  induction l with
  | nil => simp [setKey, getKey, h']
  | cons p rest ih =>
    by_cases hp : p.1 = k'
    · simp [setKey, getKey, hp, h']
    · by_cases hk : p.1 = k
      · simp [setKey, getKey, hp, hk, h]
      · simp [setKey, getKey, hp, hk, ih]

theorem find?_nomatch_append {α : Type} (l : List α) (a : α) (p : α → Bool)
    (h : ∀ x ∈ l, ¬ p x) :
    (l ++ [a]).find? p = if p a then some a else none := by
  induction l with
  | nil => cases hpa : p a <;> simp [List.find?, hpa]
  | cons x xs ih =>
    have hx : p x = false := by simpa using h x (List.mem_cons_self x xs)
    simp only [List.cons_append, List.find?, hx]
    exact ih (fun y hy => h y (List.mem_cons_of_mem _ hy))

theorem find?_unique {α : Type} (l : List α) (a : α) (p : α → Bool)
    (ha : a ∈ l) (hpa : p a = true) (huniq : ∀ x ∈ l, p x = true → x = a) :
    l.find? p = some a := by
  induction l with
  | nil => cases ha
  | cons x xs ih =>
    by_cases hx : p x = true
    · have hxa : x = a := huniq x (List.mem_cons_self x xs) hx
      subst hxa
      simp [List.find?, hx]
    · have hxf : p x = false := by simpa using hx
      have hax : a ≠ x := fun hh => hx (hh ▸ hpa)
      have ha' : a ∈ xs := by
        rcases List.mem_cons.mp ha with hh | hh
        · exact absurd hh hax
        · exact hh
      simp only [List.find?, hxf]
      exact ih ha' (fun y hy hpy => huniq y (List.mem_cons_of_mem _ hy) hpy)

theorem truthy_eq_false (o : Option String) : truthy o = false ↔ o = none ∨ o = some "" := by
  cases o with
  | none => simp [truthy]
  | some s => simp [truthy]

/-- C3: `verifyFirebaseIdToken` succeeds only when the token's issuer claim
is exactly `https://securetoken.google.com/` ++ `projectId` and its audience
claim is exactly `projectId`; a token whose issuer or audience differs fails
verification regardless of signature (and time-claim) validity. -/
theorem C3_issuer_audience_exact (tok : Token) (projectId : String) :
    (∀ c, verifyFirebaseIdToken tok projectId = some c →
      tok.payload.iss = some ("https://securetoken.google.com/" ++ projectId) ∧
      tok.payload.aud = some projectId) ∧
    (tok.payload.iss ≠ some ("https://securetoken.google.com/" ++ projectId) ∨
        tok.payload.aud ≠ some projectId →
      verifyFirebaseIdToken tok projectId = none) := by
  constructor
  · intro c hc
    rw [verifyFirebaseIdToken, jwtVerify] at hc
    split at hc
    · rename_i hcond
      simp only [Bool.and_eq_true, decide_eq_true_eq] at hcond
      exact ⟨hcond.1.2, hcond.2⟩
    · exact absurd hc (by simp)
  · intro hmm
    rw [verifyFirebaseIdToken, jwtVerify, if_neg]
    intro hcond
    simp only [Bool.and_eq_true, decide_eq_true_eq] at hcond
    rcases hmm with hmm | hmm
    · exact hmm hcond.1.2
    · exact hmm hcond.2

/-- Witness for C3 at a concrete token: wrong audience fails even with a
valid signature. -/
theorem C3_issuer_audience_exact_witness :
    verifyFirebaseIdToken
      { payload := { iss := some "https://securetoken.google.com/p1", aud := some "p2" },
        sigValid := true, timeValid := true } "p1" = none :=
  (C3_issuer_audience_exact
    { payload := { iss := some "https://securetoken.google.com/p1", aud := some "p2" },
      sigValid := true, timeValid := true } "p1").2 (Or.inr (by decide))

/-- C9: every response the handler produces, on every request and outcome,
carries the `cache-control: no-store` header. -/
theorem C9_no_store_directive (verify : String → Option Claims) (store : Store) (req : Request) :
    ("cache-control", "no-store") ∈ (handler verify store req).headers := by
  have hj : ∀ s b, ("cache-control", "no-store") ∈ (json s b).headers := by
    intro s b
    simp [json]
  unfold handler
  dsimp only
  repeat' first
    | exact hj _ _
    | split

/-- C7 (amended): for every request whose effective content-type value does
not contain the substring `application/json`, the handler answers 415 with
body `ok: false, error: "Unsupported content type"` — for every body,
verifier and store, so the body is not parsed, the token is not verified and
the store is not touched. -/
theorem C7_content_type_gate (ct : Option String) (b : Option ReqBody)
    (verify : String → Option Claims) (store : Store)
    (h : strIncludes (ct.getD "") "application/json" = false) :
    handler verify store { contentType := ct, body := b } =
      json 415 (.errBody "Unsupported content type") := by
  unfold handler
  simp [h]

/-- Witness for C7 at content-type `text/plain`. -/
theorem C7_content_type_gate_witness :
    strIncludes "text/plain" "application/json" = false ∧
    handler (fun _ => none) emptyStore { contentType := some "text/plain", body := none } =
      json 415 (.errBody "Unsupported content type") :=
  ⟨by decide,
   C7_content_type_gate (some "text/plain") none (fun _ => none) emptyStore (by decide)⟩

/-- C7 counterexample: the header value `application/json; charset=utf-8`
is a value other than `application/json`, yet the handler does not answer
415 — it passes the content-type gate and answers 400 here. -/
theorem C7_counterexample :
    ("application/json; charset=utf-8" : String) ≠ "application/json" ∧
    (handler (fun _ => none) emptyStore
      { contentType := some "application/json; charset=utf-8", body := none }).status = 400 := by
  constructor
  · decide
  · decide

/-- C8: for every request that passes the content-type gate but whose body
is missing / unparsable, lacks a string `idToken`, or carries one shorter
than 100 characters, the handler answers 400 with body
`ok: false, error: "Invalid payload"` — for every verifier (never invoked)
and store. -/
theorem C8_payload_gate (ct : Option String) (b : Option ReqBody)
    (verify : String → Option Claims) (store : Store)
    (hct : strIncludes (ct.getD "") "application/json" = true)
    (hbad : invalidPayload b = true) :
    handler verify store { contentType := ct, body := b } =
      json 400 (.errBody "Invalid payload") := by
  unfold handler
  dsimp only
  rw [hct]
  cases b with
  | none => simp
  | some bb =>
    cases hb : bb.idToken with
    | str s =>
      have hlen : s.length < 100 := by
        simpa [invalidPayload, hb] using hbad
      simp [hb, hlen]
    | nonString => simp [hb]
    | missing => simp [hb]

/-- Witness for C8 at a JSON request with a 5-character token. -/
theorem C8_payload_gate_witness :
    strIncludes "application/json" "application/json" = true ∧
    invalidPayload (some ⟨.str "short"⟩) = true ∧
    handler (fun _ => none) emptyStore
        { contentType := some "application/json", body := some ⟨.str "short"⟩ } =
      json 400 (.errBody "Invalid payload") :=
  ⟨by decide, by decide,
   C8_payload_gate (some "application/json") (some ⟨.str "short"⟩) (fun _ => none) emptyStore
     (by decide) (by decide)⟩

theorem ensure_eq_create (store : Store) (claims : Claims) (uid : String)
    (hsub : (claims.sub <|> claims.user_id) = some uid) (huid : uid ≠ "")
    (hnone : findTarget store claims = none) (hc : store.createError = false) :
    ensureSupabaseUser store claims =
      (lookupTrace store claims ++ [.createUser],
       .ok (mkNewUser store claims uid,
            { store with users := store.users ++ [mkNewUser store claims uid] })) := by
  simp [ensureSupabaseUser, hsub, huid, hnone, hc, mkNewUser]

theorem ensure_eq_createError (store : Store) (claims : Claims) (uid : String)
    (hsub : (claims.sub <|> claims.user_id) = some uid) (huid : uid ≠ "")
    (hnone : findTarget store claims = none) (hc : store.createError = true) :
    ensureSupabaseUser store claims =
      (lookupTrace store claims ++ [.createUser], .error .createFailed) := by
  simp [ensureSupabaseUser, hsub, huid, hnone, hc]

theorem ensure_eq_update (store : Store) (claims : Claims) (uid : String) (u0 : User)
    (hsub : (claims.sub <|> claims.user_id) = some uid) (huid : uid ≠ "")
    (hfound : findTarget store claims = some u0) (hupd : store.updateError = false) :
    ensureSupabaseUser store claims =
      (lookupTrace store claims ++ [.updateUserById],
       .ok (mkUpdatedUser u0 uid,
            { store with users :=
                store.users.map (fun u => if u.id = u0.id then mkUpdatedUser u0 uid else u) })) := by
  simp [ensureSupabaseUser, hsub, huid, hfound, hupd, mkUpdatedUser]

/-- C4: when neither `sub` nor `user_id` carries a usable value,
`ensureSupabaseUser` fails with the missing-subject error having issued no
store calls — for every store — and the handler surfaces this failure as a
500 response with the generic `Internal error` body. -/
theorem C4_missing_subject_fails_fast (claims : Claims) (store : Store)
    (ct : Option String) (tok : String)
    (hsub : truthy claims.sub = false) (huid : truthy claims.user_id = false)
    (hct : strIncludes (ct.getD "") "application/json" = true)
    (hlen : 100 ≤ tok.length) :
    ensureSupabaseUser store claims = ([], .error .missingSubject) ∧
    handler (fun _ => some claims) store { contentType := ct, body := some ⟨.str tok⟩ } =
      json 500 (.errBody "Internal error") := by
  have h1 : ensureSupabaseUser store claims = ([], .error .missingSubject) := by
    rcases (truthy_eq_false _).mp hsub with h | h <;>
      rcases (truthy_eq_false _).mp huid with h2 | h2 <;>
        simp [ensureSupabaseUser, h, h2]
  refine ⟨h1, ?_⟩
  unfold handler
  dsimp only
  rw [hct]
  have hnl : ¬ tok.length < 100 := Nat.not_lt.mpr hlen
  simp [hnl, h1]

/-- Witness for C4: empty claims against a well-formed request. -/
theorem C4_missing_subject_fails_fast_witness :
    truthy ({ user_id := some "" } : Claims).sub = false ∧
    truthy ({ user_id := some "" } : Claims).user_id = false ∧
    100 ≤ longTok.length ∧
    (ensureSupabaseUser emptyStore { user_id := some "" } = ([], .error .missingSubject) ∧
     handler (fun _ => some { user_id := some "" }) emptyStore
        { contentType := some "application/json", body := some ⟨.str longTok⟩ } =
       json 500 (.errBody "Internal error")) :=
  ⟨by decide, by decide, by decide,
   C4_missing_subject_fails_fast { user_id := some "" } emptyStore
     (some "application/json") longTok (by decide) (by decide) (by decide) (by decide)⟩

/-- C5: whenever reconciliation finds an existing target account and the
update succeeds, the updated account's role set is the set union of the
prior roles with `"authenticated"`: a role is present afterwards iff it was
present before or is `"authenticated"`, `"authenticated"` is present, and no
role appears twice. -/
theorem C5_role_union (store : Store) (claims : Claims) (u0 : User) (uid : String)
    (hsub : (claims.sub <|> claims.user_id) = some uid) (huid : uid ≠ "")
    (hfound : findTarget store claims = some u0)
    (hupd : store.updateError = false) :
    ∃ u s', (ensureSupabaseUser store claims).2 = .ok (u, s') ∧
      (∀ r, r ∈ u.app_metadata.roles ↔ r ∈ u0.app_metadata.roles ∨ r = "authenticated") ∧
      "authenticated" ∈ u.app_metadata.roles ∧
      u.app_metadata.roles.Nodup := by
  refine ⟨mkUpdatedUser u0 uid, _, by rw [ensure_eq_update store claims uid u0 hsub huid hfound hupd], ?_, ?_, ?_⟩
  · intro r
    simp [mkUpdatedUser, mem_jsDedup]
  · simp [mkUpdatedUser, mem_jsDedup]
  · exact nodup_jsDedup _

/-- Witness for C5: prior roles `["admin"]` become exactly admin-or-authenticated. -/
theorem C5_role_union_witness :
    findTarget foundStore foundClaims = some priorUser ∧
    (∃ u s', (ensureSupabaseUser foundStore foundClaims).2 = .ok (u, s') ∧
      (∀ r, r ∈ u.app_metadata.roles ↔ r ∈ priorUser.app_metadata.roles ∨ r = "authenticated") ∧
      "authenticated" ∈ u.app_metadata.roles ∧
      u.app_metadata.roles.Nodup) :=
  ⟨by decide,
   C5_role_union foundStore foundClaims priorUser "u1" (by decide) (by decide) (by decide) rfl⟩

/-- C10: the update performed on a found account changes only the metadata
bag and the role set: the store id, phone, email and confirmation flags are
unchanged, the subject-id and provider metadata keys are written, every
other metadata key keeps its value, and the extra `app_metadata` keys are
preserved. -/
theorem C10_update_frame (store : Store) (claims : Claims) (u0 : User) (uid : String)
    (hsub : (claims.sub <|> claims.user_id) = some uid) (huid : uid ≠ "")
    (hfound : findTarget store claims = some u0)
    (hupd : store.updateError = false) :
    ∃ u s', (ensureSupabaseUser store claims).2 = .ok (u, s') ∧
      u.id = u0.id ∧ u.phone = u0.phone ∧ u.email = u0.email ∧
      u.phoneConfirmed = u0.phoneConfirmed ∧ u.emailConfirmed = u0.emailConfirmed ∧
      u.app_metadata.extra = u0.app_metadata.extra ∧
      getKey "firebase_uid" u.user_metadata = some uid ∧
      getKey "provider" u.user_metadata = some "firebase-phone" ∧
      ∀ k, k ≠ "firebase_uid" → k ≠ "provider" →
        getKey k u.user_metadata = getKey k u0.user_metadata := by
  refine ⟨mkUpdatedUser u0 uid, _, by rw [ensure_eq_update store claims uid u0 hsub huid hfound hupd],
    rfl, rfl, rfl, rfl, rfl, rfl, ?_, ?_, ?_⟩
  · show getKey "firebase_uid" (setKey (setKey u0.user_metadata "firebase_uid" uid) "provider" "firebase-phone") = some uid
    rw [getKey_setKey_ne _ _ _ _ (by decide), getKey_setKey_self]
  · exact getKey_setKey_self _ _ _
  · intro k hk1 hk2
    show getKey k (setKey (setKey u0.user_metadata "firebase_uid" uid) "provider" "firebase-phone") = getKey k u0.user_metadata
    rw [getKey_setKey_ne _ _ _ _ hk2, getKey_setKey_ne _ _ _ _ hk1]

/-- Witness for C10 on `foundStore` / `foundClaims`. -/
theorem C10_update_frame_witness :
    findTarget foundStore foundClaims = some priorUser ∧
    (∃ u s', (ensureSupabaseUser foundStore foundClaims).2 = .ok (u, s') ∧
      u.id = priorUser.id ∧ u.phone = priorUser.phone ∧ u.email = priorUser.email ∧
      u.phoneConfirmed = priorUser.phoneConfirmed ∧ u.emailConfirmed = priorUser.emailConfirmed ∧
      u.app_metadata.extra = priorUser.app_metadata.extra ∧
      getKey "firebase_uid" u.user_metadata = some "u1" ∧
      getKey "provider" u.user_metadata = some "firebase-phone" ∧
      ∀ k, k ≠ "firebase_uid" → k ≠ "provider" →
        getKey k u.user_metadata = getKey k priorUser.user_metadata) :=
  ⟨by decide,
   C10_update_frame foundStore foundClaims priorUser "u1" (by decide) (by decide) (by decide) rfl⟩

/-- C6 counterexample: the claim set `c6claims` carries a present (but
empty) email claim, yet the created account's email-confirmed flag is
false — the code gates the field and the flag on truthiness, not
presence. -/
theorem C6_counterexample :
    c6claims.email = some "" ∧
    (ensureSupabaseUser emptyStore c6claims).2 =
      .ok (c6user, { emptyStore with users := [c6user] }) ∧
    c6user.emailConfirmed = false := by
  refine ⟨rfl, by decide, rfl⟩

/-- C6 (amended): when no existing account matches, `ensureSupabaseUser`
creates an account whose phone / email fields are set from the claims
exactly when present with a non-empty value, whose confirmation flags are
true iff the corresponding claim is present and non-empty, whose metadata
records the resolved subject under `firebase_uid` and the provenance tag
`firebase-phone`, and whose role set is exactly `["authenticated"]`; a store
error on create fails the whole operation. -/
theorem C6_create_account (store : Store) (claims : Claims) (uid : String)
    (hsub : (claims.sub <|> claims.user_id) = some uid) (huid : uid ≠ "")
    (hnone : findTarget store claims = none) :
    (store.createError = true → (ensureSupabaseUser store claims).2 = .error .createFailed) ∧
    (store.createError = false →
      ∃ u s', (ensureSupabaseUser store claims).2 = .ok (u, s') ∧
        u.id = store.nextId ∧
        u.phone = (if truthy claims.phone_number then claims.phone_number else none) ∧
        u.email = (if truthy claims.email then claims.email else none) ∧
        u.phoneConfirmed = truthy claims.phone_number ∧
        u.emailConfirmed = truthy claims.email ∧
        getKey "firebase_uid" u.user_metadata = some uid ∧
        getKey "provider" u.user_metadata = some "firebase-phone" ∧
        u.app_metadata.roles = ["authenticated"]) := by
  constructor
  · intro hc
    rw [ensure_eq_createError store claims uid hsub huid hnone hc]
  · intro hc
    refine ⟨mkNewUser store claims uid, _,
      by rw [ensure_eq_create store claims uid hsub huid hnone hc],
      rfl, rfl, rfl, rfl, rfl, ?_, ?_, rfl⟩
    · simp [mkNewUser, getKey]
    · simp [mkNewUser, getKey]

/-- Witness for C6 (amended) at claims with subject and phone only. -/
theorem C6_create_account_witness :
    findTarget emptyStore foundClaims = none ∧
    ((emptyStore.createError = true →
        (ensureSupabaseUser emptyStore foundClaims).2 = .error .createFailed) ∧
     (emptyStore.createError = false →
       ∃ u s', (ensureSupabaseUser emptyStore foundClaims).2 = .ok (u, s') ∧
         u.id = emptyStore.nextId ∧
         u.phone = (if truthy foundClaims.phone_number then foundClaims.phone_number else none) ∧
         u.email = (if truthy foundClaims.email then foundClaims.email else none) ∧
         u.phoneConfirmed = truthy foundClaims.phone_number ∧
         u.emailConfirmed = truthy foundClaims.email ∧
         getKey "firebase_uid" u.user_metadata = some "u1" ∧
         getKey "provider" u.user_metadata = some "firebase-phone" ∧
         u.app_metadata.roles = ["authenticated"])) :=
  ⟨by decide,
   C6_create_account emptyStore foundClaims "u1" (by decide) (by decide) (by decide)⟩

/-- C2: when the claims carry a phone number matching existing account A
(the unique such account) and an email matching a different existing account
B case-insensitively, reconciliation selects account A: the phone lookup
takes precedence and the email match is not used to choose the target. -/
theorem C2_phone_precedence (store : Store) (claims : Claims) (A B : User) (uid p e : String)
    (hsub : (claims.sub <|> claims.user_id) = some uid) (huid : uid ≠ "")
    (hp : claims.phone_number = some p) (hpne : p ≠ "")
    (hA : A ∈ store.users) (hAp : A.phone = some p)
    (huniq : ∀ u ∈ store.users, u.phone = some p → u = A)
    (_he : claims.email = some e) (_hene : e ≠ "")
    (_hB : B ∈ store.users) (_hBe : jsToLower (B.email.getD "") = jsToLower e)
    (hABid : B.id ≠ A.id)
    (hupd : store.updateError = false) :
    ∃ u s', (ensureSupabaseUser store claims).2 = .ok (u, s') ∧
      u.id = A.id ∧ u.id ≠ B.id := by
  have hfp : findByPhone store claims = some A := by
    simp only [findByPhone, hp]
    rw [if_neg hpne]
    exact find?_unique _ _ _ hA (by simp [hAp])
      (fun x hx hpx => huniq x hx (by simpa using hpx))
  have hft : findTarget store claims = some A := by
    rw [findTarget, hfp]
    rfl
  refine ⟨mkUpdatedUser A uid, _,
    by rw [ensure_eq_update store claims uid A hsub huid hft hupd], rfl, ?_⟩
  show A.id ≠ B.id
  exact Ne.symm hABid

/-- Witness for C2: phone matches `priorUser`, email matches `c2userB`,
reconciliation returns `priorUser`'s id. -/
theorem C2_phone_precedence_witness :
    priorUser ∈ c2store.users ∧ priorUser.phone = some "+15550001111" ∧
    c2userB ∈ c2store.users ∧ jsToLower (c2userB.email.getD "") = jsToLower "x@B.com" ∧
    c2userB.id ≠ priorUser.id ∧
    (∃ u s', (ensureSupabaseUser c2store c2claims).2 = .ok (u, s') ∧
      u.id = priorUser.id ∧ u.id ≠ c2userB.id) :=
  ⟨by decide, by decide, by decide, by decide, by decide,
   C2_phone_precedence c2store c2claims priorUser c2userB "u1" "+15550001111" "x@B.com"
     (by decide) (by decide) (by decide) (by decide) (by decide) (by decide)
     (by decide) (by decide) (by decide) (by decide) (by decide) (by decide) rfl⟩

/-- C1: with claims carrying a stable subject and a phone number, against a
store where no account matches the phone or the email, two successive
`ensureSupabaseUser` calls both succeed with the same store id (the first
creates the account, the second finds it by phone and updates it), and the
role set after each call is exactly `["authenticated"]`. -/
theorem C1_idempotent_reconciliation (store : Store) (claims : Claims) (s p : String)
    (hsub : claims.sub = some s) (hs : s ≠ "")
    (hp : claims.phone_number = some p) (hpne : p ≠ "")
    (hnophone : ∀ u ∈ store.users, u.phone ≠ some p)
    (hnoemail : ∀ u ∈ store.users, ∀ e, claims.email = some e →
      jsToLower (u.email.getD "") ≠ jsToLower e)
    (hcreate : store.createError = false) (hupd : store.updateError = false) :
    ∃ u1 s1 u2 s2,
      (ensureSupabaseUser store claims).2 = .ok (u1, s1) ∧
      (ensureSupabaseUser s1 claims).2 = .ok (u2, s2) ∧
      u1.id = u2.id ∧
      u1.app_metadata.roles = ["authenticated"] ∧
      u2.app_metadata.roles = ["authenticated"] := by
  have hsub' : (claims.sub <|> claims.user_id) = some s := by
    rw [hsub]
    rfl
  have hfp1 : findByPhone store claims = none := by
    simp only [findByPhone, hp]
    rw [if_neg hpne]
    refine List.find?_eq_none.mpr ?_
    intro x hx
    simpa using hnophone x hx
  have hfe1 : findByEmail store claims = none := by
    cases hem : claims.email with
    | none => simp [findByEmail, hem]
    | some e =>
      simp only [findByEmail, hem]
      by_cases hee : e = ""
      · rw [if_pos hee]
      · rw [if_neg hee]
        refine List.find?_eq_none.mpr ?_
        intro x hx
        simpa using hnoemail x hx e hem
  have hft1 : findTarget store claims = none := by
    rw [findTarget, hfp1, hfe1]
    rfl
  have e1 := ensure_eq_create store claims s hsub' hs hft1 hcreate
  have hnewphone : (mkNewUser store claims s).phone = some p := by
    simp [mkNewUser, hp, truthy, hpne]
  have hfp2 : findByPhone { store with users := store.users ++ [mkNewUser store claims s] } claims =
      some (mkNewUser store claims s) := by
    simp only [findByPhone, hp]
    rw [if_neg hpne]
    show (store.users ++ [mkNewUser store claims s]).find?
      (fun u => decide (u.phone = some p)) = some (mkNewUser store claims s)
    rw [find?_nomatch_append _ _ _ (fun x hx => by simpa using hnophone x hx)]
    rw [if_pos (by simpa using hnewphone)]
  have hft2 : findTarget { store with users := store.users ++ [mkNewUser store claims s] } claims =
      some (mkNewUser store claims s) := by
    rw [findTarget, hfp2]
    rfl
  have e2 := ensure_eq_update { store with users := store.users ++ [mkNewUser store claims s] }
    claims s (mkNewUser store claims s) hsub' hs hft2 hupd
  refine ⟨mkNewUser store claims s, _, mkUpdatedUser (mkNewUser store claims s) s, _,
    by rw [e1], by rw [e2], rfl, by simp [mkNewUser], ?_⟩
  show jsDedup ((mkNewUser store claims s).app_metadata.roles ++ ["authenticated"]) = ["authenticated"]
  show jsDedup (["authenticated"] ++ ["authenticated"]) = ["authenticated"]
  decide

/-- Witness for C1 on the empty store. -/
theorem C1_idempotent_reconciliation_witness :
    (∀ u ∈ emptyStore.users, u.phone ≠ some "+15550001111") ∧
    emptyStore.createError = false ∧ emptyStore.updateError = false ∧
    (∃ u1 s1 u2 s2,
      (ensureSupabaseUser emptyStore foundClaims).2 = .ok (u1, s1) ∧
      (ensureSupabaseUser s1 foundClaims).2 = .ok (u2, s2) ∧
      u1.id = u2.id ∧
      u1.app_metadata.roles = ["authenticated"] ∧
      u2.app_metadata.roles = ["authenticated"]) :=
  ⟨by decide, rfl, rfl,
   C1_idempotent_reconciliation emptyStore foundClaims "u1" "+15550001111"
     (by decide) (by decide) (by decide) (by decide)
     (by intro u hu; cases hu) (by intro u hu; cases hu) rfl rfl⟩
